import Mathlib

/-!
Verification of the `ppt-auto-vo` pipeline against its design document.

Strings that the proofs inspect character by character are modelled as
`List Char`; paths and command-line arguments stay `String`.  Each
definition is a shallow embedding of the corresponding TypeScript source
(`parseInstruksi.ts`, `renderScene` in the scene renderer module, the CLI
entry point, `types.ts`); components whose implementation is not part of
the repository snapshot (the orchestrator body, the narration synthesizer,
the manifest builder) are modelled from the design document and marked as
such in their doc comments.
-/

namespace PptAutoVo

/-! ## `src/modules/script/parseInstruksi.ts`

The function reads a file and returns
`txt.split(/\r?\n/).map(l => l.trim()).filter(Boolean)`.
We embed the pure part: the transformation from the file content to the
list of instruction lines.
-/

/-- The whitespace characters stripped by JavaScript `String.prototype.trim`
(the ASCII ones; further Unicode space classes behave identically in the
proofs). -/
def isJsSpace (c : Char) : Bool :=
  c = ' ' || c = '\t' || c = '\n' || c = '\r' || c = '\x0b' || c = '\x0c'

/-- Strip leading whitespace, the front half of `trim`. -/
def dropLeading (l : List Char) : List Char := l.dropWhile isJsSpace

/-- Strip trailing whitespace, the back half of `trim`. -/
def dropTrailing (l : List Char) : List Char :=
  (l.reverse.dropWhile isJsSpace).reverse

/-- JavaScript `String.prototype.trim`: strip whitespace from both ends. -/
def trim (l : List Char) : List Char := dropTrailing (dropLeading l)

/-- The split `txt.split(/\r?\n/)`: cut the text at every LF, consuming an
immediately preceding CR together with the LF; a lone CR is ordinary text. -/
def splitLines : List Char → List (List Char)
  | [] => [[]]
  | '\r' :: '\n' :: rest => [] :: splitLines rest
  | '\n' :: rest => [] :: splitLines rest
  | c :: rest =>
    match splitLines rest with
    | [] => [[c]]
    | l :: ls => (c :: l) :: ls

/-- Prepend a character to the first line of a split result. -/
def consHead (c : Char) : List (List Char) → List (List Char)
  | [] => [[c]]
  | l :: ls => (c :: l) :: ls

/-- The body of `parseInstruksi`: split into lines, trim each line, and keep
the truthy (non-empty) ones, exactly as
`txt.split(/\r?\n/).map(l => l.trim()).filter(Boolean)`. -/
def parseInstruksi (txt : List Char) : List (List Char) :=
  ((splitLines txt).map trim).filter (fun l => !l.isEmpty)

/-- Replace every CRLF sequence by LF, scanning left to right. -/
def replaceCRLF : List Char → List Char
  | [] => []
  | '\r' :: '\n' :: rest => '\n' :: replaceCRLF rest
  | c :: rest => c :: replaceCRLF rest

theorem splitLines_lf (r : List Char) : splitLines ('\n' :: r) = [] :: splitLines r := rfl

theorem splitLines_crlf (r : List Char) :
    splitLines ('\r' :: '\n' :: r) = [] :: splitLines r := rfl

theorem replaceCRLF_crlf (r : List Char) :
    replaceCRLF ('\r' :: '\n' :: r) = '\n' :: replaceCRLF r := rfl

theorem splitLines_cons_generic (c : Char) (rest : List Char) (h1 : c ≠ '\n')
    (h2 : c = '\r' → rest.head? ≠ some '\n') :
    splitLines (c :: rest) = consHead c (splitLines rest) := by
  rw [splitLines.eq_def]
  split
  · rename_i heq; cases heq
  · rename_i r heq
    injection heq with hcp hrp
    subst hcp
    subst hrp
    simpa using h2 rfl
  · rename_i r heq
    injection heq with hcp hrp
    exact absurd hcp h1
  · rename_i c2 r2 hA hB heq
    injection heq with hcp hrp
    subst hcp
    subst hrp
    rcases h : splitLines rest with _ | ⟨l, ls⟩ <;> simp only [consHead]

theorem replaceCRLF_cons_generic (c : Char) (rest : List Char)
    (h2 : c = '\r' → rest.head? ≠ some '\n') :
    replaceCRLF (c :: rest) = c :: replaceCRLF rest := by
  rw [replaceCRLF.eq_def]
  split
  · rename_i heq; cases heq
  · rename_i r heq
    injection heq with hcp hrp
    subst hcp
    subst hrp
    simpa using h2 rfl
  · rename_i c2 r2 hA heq
    injection heq with hcp hrp
    subst hcp
    subst hrp
    rfl

theorem splitLines_ne_nil (l : List Char) : splitLines l ≠ [] := by
  rw [splitLines.eq_def]
  split
  · simp
  · simp
  · simp
  · rcases h : splitLines _ with _ | ⟨a, b⟩ <;> simp

theorem dropTrailing_eq_rdropWhile (l : List Char) :
    dropTrailing l = List.rdropWhile isJsSpace l := rfl

theorem trim_trim (l : List Char) : trim (trim l) = trim l := by
  unfold trim dropLeading
  rw [dropTrailing_eq_rdropWhile, dropTrailing_eq_rdropWhile]
  have hfix : (List.dropWhile isJsSpace l).dropWhile isJsSpace
      = List.dropWhile isJsSpace l := List.dropWhile_idempotent _ _
  set y := List.dropWhile isJsSpace l with hy
  have hpre : List.rdropWhile isJsSpace y <+: y := List.rdropWhile_prefix _ _
  have hinner : (List.rdropWhile isJsSpace y).dropWhile isJsSpace
      = List.rdropWhile isJsSpace y := by
    rw [List.dropWhile_eq_self_iff]
    intro hl
    have hy0 : 0 < y.length := lt_of_lt_of_le hl hpre.length_le
    have hget := hpre.getElem hl
    have hnot := List.dropWhile_eq_self_iff.mp hfix hy0
    simp only [List.get_eq_getElem] at hnot ⊢
    rw [← hget] at *
    exact hnot
  rw [hinner, List.rdropWhile_idempotent]

theorem trim_concat_cr (z : List Char) : trim (z ++ ['\r']) = trim z := by
  unfold trim dropLeading
  rw [dropTrailing_eq_rdropWhile, dropTrailing_eq_rdropWhile, List.dropWhile_append]
  by_cases h : (List.dropWhile isJsSpace z).isEmpty
  · simp only [h, if_pos]
    simp only [List.isEmpty_iff] at h
    rw [h]
    simp [List.dropWhile, isJsSpace, List.rdropWhile]
  · simp only [h, if_neg, Bool.false_eq_true, not_false_iff, if_false]
    rw [List.rdropWhile_concat_pos]
    decide

theorem trim_append_replicate_cr (k : ℕ) (z : List Char) :
    trim (z ++ List.replicate k '\r') = trim z := by
  induction k generalizing z with
  | zero => simp
  | succ n ih =>
    have : z ++ List.replicate (n + 1) '\r' = (z ++ ['\r']) ++ List.replicate n '\r' := by
      simp [List.replicate_succ, List.append_assoc]
    rw [this, ih, trim_concat_cr]

/-- The relation between one line of the CRLF-normalized input and the
corresponding line of the original input: the original line may carry extra
trailing CRs (which `trim` removes). -/
def CRsuffix (a b : List Char) : Prop := ∃ k, b = a ++ List.replicate k '\r'

theorem head_lf_of_replaceCRLF (rest : List Char)
    (h : (replaceCRLF rest).head? = some '\n') :
    rest.head? = some '\n' ∨ ∃ t, rest = '\r' :: '\n' :: t := by
  rcases rest with _ | ⟨d, r2⟩
  · simp [replaceCRLF] at h
  · by_cases hd : d = '\r' ∧ r2.head? = some '\n'
    · obtain ⟨hd1, hd2⟩ := hd
      rcases r2 with _ | ⟨e, r3⟩
      · simp at hd2
      · simp at hd2
        right
        exact ⟨r3, by rw [hd1, hd2]⟩
    · rw [replaceCRLF_cons_generic d r2 (fun h1 h2 => hd ⟨h1, h2⟩)] at h
      simp at h
      left
      simp [h]

theorem splitLines_replaceCRLF (cs : List Char) :
    List.Forall₂ CRsuffix (splitLines (replaceCRLF cs)) (splitLines cs) := by
  induction cs using replaceCRLF.induct with
  | case1 =>
    exact List.Forall₂.cons ⟨0, rfl⟩ List.Forall₂.nil
  | case2 rest ih =>
    rw [replaceCRLF_crlf, splitLines_lf, splitLines_crlf]
    exact List.Forall₂.cons ⟨0, rfl⟩ ih
  | case3 c rest hne ih =>
    have hcnot : c = '\r' → rest.head? ≠ some '\n' := by
      intro hc hh
      rcases rest with _ | ⟨d, r2⟩
      · simp at hh
      · simp at hh
        exact hne r2 hc (by rw [hh])
    rw [replaceCRLF_cons_generic c rest hcnot]
    by_cases hc : c = '\n'
    · subst hc
      rw [splitLines_lf, splitLines_lf]
      exact List.Forall₂.cons ⟨0, rfl⟩ ih
    · by_cases hcr : c = '\r' ∧ (replaceCRLF rest).head? = some '\n'
      · obtain ⟨hc_r, hhead⟩ := hcr
        subst hc_r
        rcases head_lf_of_replaceCRLF rest hhead with hl | ⟨t, ht⟩
        · exact absurd hl (hcnot rfl)
        · subst ht
          rw [replaceCRLF_crlf, splitLines_crlf]
          have hrhs : splitLines ('\r' :: '\r' :: '\n' :: t)
              = ['\r'] :: splitLines t := by
            rw [splitLines_cons_generic '\r' ('\r' :: '\n' :: t) (by decide)
              (fun _ => by simp), splitLines_crlf]
            rfl
          rw [hrhs]
          have ih2 := ih
          rw [replaceCRLF_crlf, splitLines_lf, splitLines_crlf] at ih2
          rcases List.forall₂_cons.mp ih2 with ⟨-, htail⟩
          exact List.Forall₂.cons ⟨1, rfl⟩ htail
      · have hcr' : c = '\r' → (replaceCRLF rest).head? ≠ some '\n' := by
          intro h1 h2
          exact hcr ⟨h1, h2⟩
        rw [splitLines_cons_generic c (replaceCRLF rest) hc hcr',
          splitLines_cons_generic c rest hc hcnot]
        rcases hA : splitLines (replaceCRLF rest) with _ | ⟨a, A⟩
        · exact absurd hA (splitLines_ne_nil _)
        · rcases hB : splitLines rest with _ | ⟨b, B⟩
          · exact absurd hB (splitLines_ne_nil _)
          · have := ih
            rw [hA, hB] at this
            rcases List.forall₂_cons.mp this with ⟨⟨k, hk⟩, htail⟩
            exact List.Forall₂.cons ⟨k, by rw [hk, List.cons_append]⟩ htail

theorem map_trim_of_forall₂ (A B : List (List Char))
    (h : List.Forall₂ CRsuffix A B) : A.map trim = B.map trim := by
  induction h with
  | nil => rfl
  | cons hab htail ihm =>
    rcases hab with ⟨k, hk⟩
    simp only [List.map_cons, ihm, hk, trim_append_replicate_cr]

/-! ## The scene renderer (`renderScene`)

`renderScene` probes the audio duration, creates the output directory, and
spawns the encoder:

```
const duration = await getAudioDurationSec(audioPath, ffprobePath);
await mkdir(path.dirname(outScenePath), { recursive: true });
const args = ["-y", "-loop", "1", "-i", slidePngPath, "-i", audioPath,
  "-t", duration.toFixed(3), "-r", String(fps), "-vf",
  "scale=W:H:force_original_aspect_ratio=decrease,pad=W:H:(ow-iw)/2:(oh-ih)/2",
  "-c:v", "libx264", "-pix_fmt", "yuv420p", "-c:a", "aac", "-shortest",
  outScenePath];
await run(ffmpegPath, args);
```

The probe result is passed in explicitly (`getAudioDurationSec` is an
external subprocess wrapper): `Except.ok d` for a successful probe of `d`
seconds, `Except.error e` for a failed one.  The filesystem and subprocess
effects are recorded as an effect trace. -/

/-- The parameter record of `renderScene` (the TypeScript defaults are
`ffmpegPath = "ffmpeg"`, `ffprobePath = "ffprobe"`). -/
structure RenderSceneParams where
  slidePngPath : String
  audioPath : String
  outScenePath : String
  width : ℕ
  height : ℕ
  fps : ℕ
  ffmpegPath : String
  ffprobePath : String

/-- A side effect performed by `renderScene`: a recursive `mkdir`, or a
subprocess spawn with its argument list. -/
inductive RenderEffect
  | mkdirp (dir : String)
  | spawnProc (cmd : String) (args : List String)
deriving DecidableEq

/-- `path.dirname`: everything before the last `/`; `"."` when there is no
slash, `"/"` for a file directly under the root. -/
def dirname (s : String) : String :=
  match s.toList.reverse.dropWhile (fun c => c ≠ '/') with
  | [] => "."
  | ['/'] => "/"
  | _ :: rest => String.mk rest.reverse

/-- JavaScript rounding to the nearest integer, half away from zero for the
nonnegative values that durations take (`Number.prototype.toFixed` rounds
this way on them). -/
def jsRound (q : ℚ) : ℤ := ⌊q + 1 / 2⌋

/-- Zero-pad a sub-thousand value to three digits. -/
def pad3 (k : ℕ) : String :=
  if k < 10 then "00" ++ toString k
  else if k < 100 then "0" ++ toString k
  else toString k

/-- `duration.toFixed(3)`: the duration rendered as a decimal with exactly
three fractional digits (millisecond precision). -/
def formatFixed3 (d : ℚ) : String :=
  let n : ℤ := jsRound (d * 1000)
  let m : ℕ := n.natAbs
  (if n < 0 then "-" else "") ++ toString (m / 1000) ++ "." ++ pad3 (m % 1000)

/-- The fixed-3 decimal representation of exactly `n` milliseconds. -/
def fixed3OfMs (n : ℕ) : String :=
  toString (n / 1000) ++ "." ++ pad3 (n % 1000)

/-- The `-vf` filter string built by `renderScene`: aspect-preserving scale
into the target box followed by centered padding to exactly the target
size. -/
def sceneFilter (w h : ℕ) : String :=
  "scale=" ++ toString w ++ ":" ++ toString h ++
    ":force_original_aspect_ratio=decrease,pad=" ++ toString w ++ ":" ++
    toString h ++ ":(ow-iw)/2:(oh-ih)/2"

/-- The encoder argument list `renderScene` builds for a probed duration. -/
def ffmpegSceneArgs (p : RenderSceneParams) (duration : ℚ) : List String :=
  ["-y", "-loop", "1", "-i", p.slidePngPath, "-i", p.audioPath,
   "-t", formatFixed3 duration, "-r", toString p.fps, "-vf",
   sceneFilter p.width p.height, "-c:v", "libx264", "-pix_fmt", "yuv420p",
   "-c:a", "aac", "-shortest", p.outScenePath]

/-- The `run` helper: resolve on exit code 0, otherwise reject with
`"<cmd> exited with code <code>"` (`null` when the process had no code). -/
def runResult (cmd : String) (exitCode : Option ℤ) : Except String Unit :=
  match exitCode with
  | some 0 => Except.ok ()
  | some c => Except.error (cmd ++ " exited with code " ++ toString c)
  | none => Except.error (cmd ++ " exited with code null")

/-- `renderScene`: on a failed probe the rejection propagates before any
effect; on a successful probe the output directory is created and the
encoder is spawned, the overall result being the spawn's result. -/
def renderScene (p : RenderSceneParams) (probe : Except String ℚ)
    (ffmpegExit : Option ℤ) : List RenderEffect × Except String Unit :=
  match probe with
  | Except.error e => ([], Except.error e)
  | Except.ok duration =>
    ([RenderEffect.mkdirp (dirname p.outScenePath),
      RenderEffect.spawnProc p.ffmpegPath (ffmpegSceneArgs p duration)],
     runResult p.ffmpegPath ffmpegExit)

/-! ### Modelled semantics of the scale/pad filter chain

`scale=w:h:force_original_aspect_ratio=decrease` shrinks the computed size
so the image fits inside `w`x`h` with its aspect ratio kept;
`pad=w:h:x:y` places it on a `w`x`h` canvas at offset `(x, y)` and fails
when the input exceeds the canvas.  The filters are external to the
repository; the definitions follow the encoder's documentation of the
exact strings `renderScene` passes. -/

/-- Aspect-preserving fit of a `iw`x`ih` image into a `w`x`h` box. -/
def scaleDecrease (iw ih w h : ℕ) : ℕ × ℕ :=
  if iw * h ≤ w * ih then (iw * h / ih, h) else (w, ih * w / iw)

/-- Canvas size and placement offset of `pad=w:h:(ow-iw)/2:(oh-ih)/2` for a
`iw`x`ih` input; `none` when the input does not fit the canvas. -/
def padCenter (iw ih w h : ℕ) : Option ((ℕ × ℕ) × (ℕ × ℕ)) :=
  if iw ≤ w ∧ ih ≤ h then some ((w, h), ((w - iw) / 2, (h - ih) / 2))
  else none

/-- Output dimensions and offset of the whole filter chain on a `iw`x`ih`
input image. -/
def sceneFilterOutput (iw ih w h : ℕ) : Option ((ℕ × ℕ) × (ℕ × ℕ)) :=
  padCenter (scaleDecrease iw ih w h).1 (scaleDecrease iw ih w h).2 w h

/-! ## The CLI entry point

`main` awaits `runPipeline()`; a resolved promise lets the process exit
normally (code 0), a rejection hits `main().catch(...)` which calls
`process.exit(1)`. -/

/-- The process exit code as a function of the pipeline outcome. -/
def mainExitCode (outcome : Except String Unit) : ℕ :=
  match outcome with
  | Except.ok _ => 0
  | Except.error _ => 1

/-! ## The pipeline orchestrator

The `runPipeline` body in the repository snapshot is an explicit stub (it
logs, sleeps 100 ms, and returns); the orchestrator implementation the
design document describes (`pptx_to_video.py`) is not part of the
snapshot.  The state machine, the stage barriers, the narration fallback
and the manifest builder below are therefore modelled from the design
document. -/

/-- Modelled from the spec: the per-run state machine
`INIT → SOURCED → NARRATED → RENDERED → ASSEMBLED → DONE` with the
absorbing `FAILED` state. -/
inductive Stage
  | INIT
  | SOURCED
  | NARRATED
  | RENDERED
  | ASSEMBLED
  | DONE
  | FAILED
deriving DecidableEq

/-- Modelled from the spec: the successor of each stage on success. -/
def nextStage : Stage → Stage
  | Stage.INIT => Stage.SOURCED
  | Stage.SOURCED => Stage.NARRATED
  | Stage.NARRATED => Stage.RENDERED
  | Stage.RENDERED => Stage.ASSEMBLED
  | Stage.ASSEMBLED => Stage.DONE
  | Stage.DONE => Stage.DONE
  | Stage.FAILED => Stage.FAILED

/-- Modelled from the spec: one orchestrator step; a failed stage sends the
run to `FAILED`, which absorbs every later step. -/
def stepStage (s : Stage) (ok : Bool) : Stage :=
  if s = Stage.FAILED then Stage.FAILED
  else if ok then nextStage s else Stage.FAILED

/-- The sequence of states a run visits from `s` given the stage
outcomes. -/
def runTrace (s : Stage) : List Bool → List Stage
  | [] => [s]
  | b :: bs => s :: runTrace (stepStage s b) bs

/-- Modelled from the spec: a full run's visited states, from `INIT`, one
outcome per stage transition. -/
def pipelineStates (outcomes : List Bool) : List Stage :=
  runTrace Stage.INIT outcomes

/-- A per-page stage-completion event of the orchestrator. -/
inductive PageEvent
  | sourced (page : ℕ)
  | narrated (page : ℕ)
  | rendered (page : ℕ)
  | assembled
deriving DecidableEq

/-- Modelled from the spec: the order in which stage outputs are produced
over an `n`-page input: every page is sourced, then every page narrated,
then every page rendered, then the single assembly barrier runs. -/
def pipelineEvents (n : ℕ) : List PageEvent :=
  ((List.range n).map PageEvent.sourced) ++
    ((List.range n).map PageEvent.narrated) ++
    ((List.range n).map PageEvent.rendered) ++ [PageEvent.assembled]

/-! ## The narration synthesizer (modelled from the spec) -/

/-- Modelled from the spec: the fixed nominal duration, in seconds, of the
silent fallback audio asset. -/
def FALLBACK_SILENCE_SECONDS : ℚ := 3

/-- A timed audio asset with its diagnostic provenance flag. -/
structure AudioAsset where
  filePath : String
  durationSeconds : ℚ
  isFallback : Bool
deriving DecidableEq

/-- Modelled from the spec: the deterministic silent fallback asset of a
page (pages are 1-based on disk). -/
def silentAsset (page : ℕ) : AudioAsset :=
  ⟨"audio/slide-" ++ toString (page + 1) ++ ".mp3",
    FALLBACK_SILENCE_SECONDS, true⟩

/-- Modelled from the spec: one page's narration synthesis.  The network
call yields `some (path, duration)` on success and `none` on any failure
(timeout, offline, quota, malformed response); every failure falls back to
the silent asset instead of failing the page. -/
def synthesizePage (net : Option (String × ℚ)) (page : ℕ) : AudioAsset :=
  match net with
  | some pd => ⟨pd.1, pd.2, false⟩
  | none => silentAsset page

/-- Modelled from the spec: the narration stage over `n` pages with the
network behaviour `net`; it always yields one asset per page. -/
def narrationStage (net : ℕ → Option (String × ℚ)) (n : ℕ) : List AudioAsset :=
  (List.range n).map (fun p => synthesizePage (net p) p)

/-- Modelled from the spec: the stage outcomes of a run whose only
unavailable resource is the network: sourcing, narration (which cannot
fail, by the fallback), rendering and assembly all succeed. -/
def offlineOutcomes : List Bool := [true, true, true, true, true]

/-! ## The manifest (`src/core/types.ts`) -/

/-- The `Manifest` interface of `types.ts`: three parallel path lists. -/
structure Manifest where
  slides : List String
  audio : List String
  scenes : List String

/-- Modelled from the spec and the documented layout: the deterministic
raster path of page `i` (0-based here, 1-based on disk). -/
def slidePagePath (i : ℕ) : String :=
  "slides/slide-" ++ toString (i + 1) ++ ".png"

/-- Modelled from the spec: the deterministic audio path of page `i`. -/
def audioPagePath (i : ℕ) : String :=
  "audio/slide-" ++ toString (i + 1) ++ ".mp3"

/-- Modelled from the spec: the deterministic scene path of page `i`. -/
def scenePagePath (i : ℕ) : String :=
  "slide_videos/slide-" ++ toString (i + 1) ++ ".mp4"

/-- Modelled from the spec: the manifest the orchestrator materializes for
an `n`-page run, one entry per page in page order in each list. -/
def buildManifest (n : ℕ) : Manifest :=
  ⟨(List.range n).map slidePagePath,
    (List.range n).map audioPagePath,
    (List.range n).map scenePagePath⟩

/-- The view of a manifest as the ordered list of per-page
`(imagePath, audioPath, scenePath)` triples the assembler consumes. -/
def manifestTriples (m : Manifest) : List (String × String × String) :=
  m.slides.zip (m.audio.zip m.scenes)

/-! ## Helper lemmas for the claim theorems -/

theorem jsRound_natCast (n : ℕ) : jsRound (n : ℚ) = n := by
  unfold jsRound
  rw [show ((n : ℚ) + 1 / 2) = 1 / 2 + (n : ℚ) by ring, Int.floor_add_nat]
  norm_num

theorem formatFixed3_ms (n : ℕ) : formatFixed3 ((n : ℚ) / 1000) = fixed3OfMs n := by
  unfold formatFixed3 fixed3OfMs
  have h1 : ((n : ℚ) / 1000) * 1000 = (n : ℚ) := by
    field_simp
  rw [h1, jsRound_natCast]
  have h2 : ¬ ((n : ℤ) < 0) := by omega
  simp [h2]

theorem scaleDecrease_fits (iw ih w h : ℕ) :
    (scaleDecrease iw ih w h).1 ≤ w ∧ (scaleDecrease iw ih w h).2 ≤ h ∧
    (scaleDecrease iw ih w h).1 * ih ≤ iw * h ∧
    (scaleDecrease iw ih w h).2 * iw ≤ ih * w ∧
    ((scaleDecrease iw ih w h).1 = w ∨ (scaleDecrease iw ih w h).2 = h) := by
  unfold scaleDecrease
  by_cases hc : iw * h ≤ w * ih
  · rw [if_pos hc]
    refine ⟨Nat.div_le_of_le_mul (by linarith), le_refl h, ?_, ?_, Or.inr rfl⟩
    · exact Nat.div_mul_le_self _ _
    · calc h * iw = iw * h := by ring
        _ ≤ w * ih := hc
        _ = ih * w := by ring
  · rw [if_neg hc]
    push_neg at hc
    refine ⟨le_refl w, Nat.div_le_of_le_mul (by nlinarith), ?_, ?_, Or.inl rfl⟩
    · calc w * ih ≤ iw * h := le_of_lt hc
        _ = iw * h := rfl
    · exact Nat.div_mul_le_self _ _

/-- One orchestrator step agrees with the state machine: from a non-`FAILED`
state the run either advances to the next stage or fails; `FAILED` is
absorbing. -/
def stageStepRel (a b : Stage) : Prop :=
  (a = Stage.FAILED → b = Stage.FAILED) ∧
    (a ≠ Stage.FAILED → b = nextStage a ∨ b = Stage.FAILED)

theorem stageStepRel_step (s : Stage) (b : Bool) : stageStepRel s (stepStage s b) := by
  unfold stageStepRel stepStage
  split_ifs with h1 h2 <;> simp_all

theorem runTrace_head (s : Stage) (bs : List Bool) :
    (runTrace s bs).head? = some s := by
  cases bs <;> rfl

theorem runTrace_chain (s : Stage) (bs : List Bool) :
    List.Chain' stageStepRel (runTrace s bs) := by
  induction bs generalizing s with
  | nil => simp [runTrace]
  | cons b bs ih =>
    rw [runTrace, List.chain'_cons']
    refine ⟨?_, ih _⟩
    intro y hy
    rw [runTrace_head] at hy
    cases hy
    exact stageStepRel_step s b

theorem pipelineEvents_sourced (n q : ℕ) (hq : q < n) :
    (pipelineEvents n)[q]? = some (PageEvent.sourced q) := by
  unfold pipelineEvents
  rw [List.getElem?_append_left (by simp only [List.length_append, List.length_map, List.length_range]; omega)]
  rw [List.getElem?_append_left (by simp only [List.length_append, List.length_map, List.length_range]; omega)]
  rw [List.getElem?_append_left (by simpa using hq)]
  simp [List.getElem?_range hq]

theorem pipelineEvents_narrated (n p : ℕ) (hp : p < n) :
    (pipelineEvents n)[n + p]? = some (PageEvent.narrated p) := by
  unfold pipelineEvents
  rw [List.getElem?_append_left (by simp only [List.length_append, List.length_map, List.length_range]; omega)]
  rw [List.getElem?_append_left (by simp only [List.length_append, List.length_map, List.length_range]; omega)]
  rw [List.getElem?_append_right (by simp)]
  simp only [List.length_map, List.length_range, Nat.add_sub_cancel_left]
  simp [List.getElem?_range hp]

theorem pipelineEvents_rendered (n p : ℕ) (hp : p < n) :
    (pipelineEvents n)[n + n + p]? = some (PageEvent.rendered p) := by
  unfold pipelineEvents
  rw [List.getElem?_append_left (by simp only [List.length_append, List.length_map, List.length_range]; omega)]
  rw [List.getElem?_append_right (by simp only [List.length_append, List.length_map, List.length_range]; omega)]
  simp only [List.length_append, List.length_map, List.length_range]
  rw [show n + n + p - (n + n) = p by omega]
  simp [List.getElem?_range hp]

theorem pipelineEvents_assembled (n : ℕ) :
    (pipelineEvents n)[n + n + n]? = some PageEvent.assembled := by
  unfold pipelineEvents
  rw [List.getElem?_append_right (by simp only [List.length_append, List.length_map, List.length_range]; omega)]
  simp only [List.length_append, List.length_map, List.length_range]
  rw [show n + n + n - (n + n + n) = 0 by omega]
  rfl

/-- Parameters of `renderScene` for page 1 of a demonstration run. -/
def demoParams : RenderSceneParams :=
  ⟨"slides/slide-1.png", "audio/slide-1.mp3", "slide_videos/slide-1.mp4",
    1920, 1080, 30, "ffmpeg", "ffprobe"⟩

/-- Parameters of `renderScene` for page 2 of a demonstration run. -/
def demoParams2 : RenderSceneParams :=
  ⟨"slides/slide-2.png", "audio/slide-2.mp3", "slide_videos/slide-2.mp4",
    1920, 1080, 30, "ffmpeg", "ffprobe"⟩

/-! ## Claim theorems -/

/-- Claim C1: when the duration probe succeeds with value `d` (here, `d` on
the millisecond grid `toFixed(3)` renders exactly), `renderScene` creates
the output directory and invokes the encoder whose argument list carries
`-t` followed by `d` rendered to three decimals — `fixed3OfMs n`, the exact
decimal for the `n` milliseconds measured — so the scene's length is driven
by the measured audio duration, not an assumed value. -/
theorem renderScene_duration_from_probe (p : RenderSceneParams) (d : ℚ)
    (n : ℕ) (hd : d = (n : ℚ) / 1000) (ex : Option ℤ) :
    (renderScene p (Except.ok d) ex).1
      = [RenderEffect.mkdirp (dirname p.outScenePath),
        RenderEffect.spawnProc p.ffmpegPath (ffmpegSceneArgs p d)]
    ∧ (ffmpegSceneArgs p d)[7]? = some "-t"
    ∧ (ffmpegSceneArgs p d)[8]? = some (formatFixed3 d)
    ∧ formatFixed3 d = fixed3OfMs n := by
  refine ⟨rfl, rfl, rfl, ?_⟩
  rw [hd, formatFixed3_ms]

/-- Claim C1 witness: a 3.5-second probe result is passed to the encoder as
the explicit duration string for exactly 3500 milliseconds. -/
theorem renderScene_duration_from_probe_witness :
    (ffmpegSceneArgs demoParams (7 / 2 : ℚ))[8]? = some (formatFixed3 (7 / 2 : ℚ))
    ∧ formatFixed3 (7 / 2 : ℚ) = fixed3OfMs 3500 := by
  have h := renderScene_duration_from_probe demoParams (7 / 2 : ℚ) 3500
    (by norm_num) (some 0)
  exact ⟨h.2.2.1, h.2.2.2⟩

/-- Claim C2 counterexample: two pages with distinct assets but the same
probe failure make `renderScene` reject with literally the same error
value — the raw probe error — so the failure carries no page index and no
`SceneRenderError` structure (neither exists in `renderScene`). -/
theorem renderScene_probe_error_counterexample :
    renderScene demoParams (Except.error "ffprobe failed") none
      = renderScene demoParams2 (Except.error "ffprobe failed") none
    ∧ (renderScene demoParams (Except.error "ffprobe failed") none).2
      = Except.error "ffprobe failed" :=
  ⟨rfl, rfl⟩

/-- Claim C2 (amended): when the duration probe fails, `renderScene`
rejects with the probe's own error — no default duration is substituted and
no encode is attempted; the rejection is the unwrapped probe error (page
indexing of errors is left to the caller). -/
theorem renderScene_probe_failure_propagates (p : RenderSceneParams)
    (e : String) (ex : Option ℤ) :
    (renderScene p (Except.error e) ex).2 = Except.error e := rfl

/-- Claim C3: in a run with zero network access, every page's narration
synthesis yields the silent fallback asset of the fixed nominal duration
(never failing the page), one asset per page, and the run's state machine
still ends in `DONE`. -/
theorem offline_run_silent_fallback (n : ℕ) (a : AudioAsset)
    (ha : a ∈ narrationStage (fun _ => none) n) :
    a.isFallback = true
    ∧ a.durationSeconds = FALLBACK_SILENCE_SECONDS
    ∧ (narrationStage (fun _ => none) n).length = n
    ∧ (pipelineStates offlineOutcomes).getLast? = some Stage.DONE := by
  rcases List.mem_map.mp ha with ⟨p, -, rfl⟩
  exact ⟨rfl, rfl, by simp [narrationStage], by decide⟩

/-- Claim C3 witness: in a 2-page offline run the first page's asset is the
3-second silent fallback and the run reaches `DONE`. -/
theorem offline_run_silent_fallback_witness :
    (silentAsset 0).isFallback = true
    ∧ (silentAsset 0).durationSeconds = FALLBACK_SILENCE_SECONDS
    ∧ (narrationStage (fun _ => none) 2).length = 2
    ∧ (pipelineStates offlineOutcomes).getLast? = some Stage.DONE :=
  offline_run_silent_fallback 2 (silentAsset 0) (by decide)

/-- Claim C4: the encoder invocation carries `-vf` with the exact
scale-then-pad filter for the target size, and under that filter every
input image — whatever its dimensions — is shrunk aspect-preservingly to
fit the target box (one side filling it exactly, within integer rounding)
and then padded with centered offsets to exactly the target width and
height, so all scenes of a run share identical output dimensions. -/
theorem renderScene_scale_pad_letterbox (p : RenderSceneParams) (d : ℚ)
    (iw ih : ℕ) :
    (ffmpegSceneArgs p d)[11]? = some "-vf"
    ∧ (ffmpegSceneArgs p d)[12]? = some (sceneFilter p.width p.height)
    ∧ sceneFilterOutput iw ih p.width p.height
        = some ((p.width, p.height),
            ((p.width - (scaleDecrease iw ih p.width p.height).1) / 2,
              (p.height - (scaleDecrease iw ih p.width p.height).2) / 2))
    ∧ (scaleDecrease iw ih p.width p.height).1 * ih ≤ iw * p.height
    ∧ (scaleDecrease iw ih p.width p.height).2 * iw ≤ ih * p.width
    ∧ ((scaleDecrease iw ih p.width p.height).1 = p.width
        ∨ (scaleDecrease iw ih p.width p.height).2 = p.height) := by
  obtain ⟨h1, h2, h3, h4, h5⟩ := scaleDecrease_fits iw ih p.width p.height
  refine ⟨rfl, rfl, ?_, h3, h4, h5⟩
  unfold sceneFilterOutput padCenter
  rw [if_pos ⟨h1, h2⟩]

/-- Claim C5: the orchestrator's visited states start at `INIT` and follow
the state machine (each step advances to the next stage or falls into the
absorbing `FAILED`); a run whose five stages all succeed ends in `DONE`;
and in the stage-barrier event order every page is sourced before any page
is narrated, narrated before rendered, and rendered before the single
assembly, so a later stage never starts before its full predecessor output
exists. -/
theorem pipeline_state_machine_and_order (outcomes : List Bool)
    (n p q : ℕ) (hp : p < n) (hq : q < n) :
    (pipelineStates outcomes).head? = some Stage.INIT
    ∧ List.Chain' stageStepRel (pipelineStates outcomes)
    ∧ (outcomes = offlineOutcomes →
        (pipelineStates outcomes).getLast? = some Stage.DONE)
    ∧ (pipelineEvents n)[q]? = some (PageEvent.sourced q)
    ∧ (pipelineEvents n)[n + p]? = some (PageEvent.narrated p)
    ∧ (pipelineEvents n)[n + n + p]? = some (PageEvent.rendered p)
    ∧ (pipelineEvents n)[n + n + n]? = some PageEvent.assembled
    ∧ q < n + p ∧ n + p < n + n + p ∧ n + n + p < n + n + n := by
  refine ⟨runTrace_head _ _, runTrace_chain _ _, ?_,
    pipelineEvents_sourced n q hq, pipelineEvents_narrated n p hp,
    pipelineEvents_rendered n p hp, pipelineEvents_assembled n,
    by omega, by omega, by omega⟩
  intro ho
  rw [ho]
  decide

/-- Claim C5 witness: a 2-page run with all stages succeeding reaches
`DONE`, with the dependency-ordered event positions instantiated. -/
theorem pipeline_state_machine_and_order_witness :
    (pipelineStates offlineOutcomes).getLast? = some Stage.DONE
    ∧ (pipelineEvents 2)[2 + 1]? = some (PageEvent.narrated 1) := by
  have h := pipeline_state_machine_and_order offlineOutcomes 2 1 0
    (by decide) (by decide)
  exact ⟨h.2.2.1 rfl, h.2.2.2.2.1⟩

/-- Claim C6: the manifest built for an `n`-page run, read as the triple
list the assembler consumes, has exactly one `(imagePath, audioPath,
scenePath)` entry per page, and the entry at position `i` is the triple of
page `i + 1` — ascending page order with no gaps. -/
theorem manifest_one_triple_per_page (n i : ℕ) (hi : i < n) :
    (manifestTriples (buildManifest n)).length = n
    ∧ (manifestTriples (buildManifest n))[i]?
        = some (slidePagePath i, audioPagePath i, scenePagePath i) := by
  have hz : manifestTriples (buildManifest n)
      = (List.range n).map
          (fun j => (slidePagePath j, audioPagePath j, scenePagePath j)) := by
    unfold manifestTriples buildManifest
    rw [List.zip_map', List.zip_map']
  rw [hz]
  refine ⟨by simp, ?_⟩
  simp [List.getElem?_range hi]

/-- Claim C6 witness: the 3-page manifest has exactly three triples and its
second entry is page 2's triple. -/
theorem manifest_one_triple_per_page_witness :
    (manifestTriples (buildManifest 3)).length = 3
    ∧ (manifestTriples (buildManifest 3))[1]?
        = some (slidePagePath 1, audioPagePath 1, scenePagePath 1) :=
  manifest_one_triple_per_page 3 1 (by decide)

/-- Claim C7: the CLI entry point maps a resolved pipeline run to process
exit code 0 and a rejected (FAILED) run to the non-zero exit code 1. -/
theorem main_exit_codes (e : String) :
    mainExitCode (Except.ok ()) = 0 ∧ mainExitCode (Except.error e) ≠ 0 :=
  ⟨rfl, by simp [mainExitCode]⟩

/-- Claim C8: every line `parseInstruksi` returns is non-empty and equals
its own trim (no leading or trailing whitespace), so blank or
whitespace-only input lines never appear in the result. -/
theorem parseInstruksi_trimmed (txt l : List Char)
    (h : l ∈ parseInstruksi txt) : l ≠ [] ∧ trim l = l := by
  unfold parseInstruksi at h
  rcases List.mem_filter.mp h with ⟨hmem, hne⟩
  rcases List.mem_map.mp hmem with ⟨l0, -, rfl⟩
  refine ⟨?_, trim_trim l0⟩
  simpa using hne

/-- Claim C8 witness: on the input `"  hi \n\n x "` the returned line
`"hi"` is non-empty and trim-fixed. -/
theorem parseInstruksi_trimmed_witness :
    ['h', 'i'] ∈ parseInstruksi [' ', ' ', 'h', 'i', ' ', '\n', '\n', ' ', 'x', ' ']
    ∧ (['h', 'i'] ≠ [] ∧ trim ['h', 'i'] = ['h', 'i']) :=
  ⟨by decide, parseInstruksi_trimmed
    [' ', ' ', 'h', 'i', ' ', '\n', '\n', ' ', 'x', ' '] ['h', 'i'] (by decide)⟩

/-- Claim C9: when the duration probe fails, `renderScene` performs no side
effect at all — in particular it neither creates the output scene directory
nor spawns the encoder subprocess. -/
theorem renderScene_probe_failure_no_effects (p : RenderSceneParams)
    (e : String) (ex : Option ℤ) :
    (renderScene p (Except.error e) ex).1 = [] := rfl

/-- Claim C10: `parseInstruksi` is invariant under the line-ending
convention: normalizing every CRLF of the input to LF leaves the result
unchanged. -/
theorem parseInstruksi_crlf_invariant (txt : List Char) :
    parseInstruksi (replaceCRLF txt) = parseInstruksi txt := by
  unfold parseInstruksi
  rw [map_trim_of_forall₂ _ _ (splitLines_replaceCRLF txt)]

end PptAutoVo
